import Mathlib

/-!
Shallow embedding of `src/scad/scripts/scad_tool.py` (an OpenSCAD CLI wrapper).

Numeric values (angles, distances, camera coordinates) are modelled as
rationals.  This is exact for the quantities the claims speak about:
every claim evaluates the script's arithmetic at decimal inputs whose
intermediate float computations are exact (integer steps below 360,
tenth-of-a-degree labels), or speaks only about string structure.
The two genuinely floating-point operations — `math.cos`/`math.sin`
inside `direction_from_angles` and `float()` string parsing inside
`parse_angles` — are abstracted as explicit function parameters
(`direction_from_angles : ℚ → ℚ → ℚ × ℚ × ℚ` and
`pyFloat : String → Option ℚ`, `none` modelling a raised `ValueError`);
no claim depends on their pointwise values.

`int(360/step)` in `cmd_screenshots` is modelled as natural division
`360 / step`: for `1 ≤ step ≤ 360` the float quotient is within
`2⁻⁴⁴` of the rational value whose distance to the nearest integer is
either `0` (exact) or at least `1/360`, and for `step > 360` the float
quotient lies strictly below `1`, so `int` truncation agrees with
natural division for every positive step.
-/

namespace ScadTool

/-- Little-endian decimal digits of `n`, with explicit fuel (`fuel ≥ n`
suffices) so that the recursion is structural. -/
def natDigitsAux : Nat → Nat → List Nat
  | 0, _ => []
  | _ + 1, 0 => []
  | fuel + 1, n + 1 => ((n + 1) % 10) :: natDigitsAux fuel ((n + 1) / 10)

def natDigits (n : Nat) : List Nat := natDigitsAux n n

/-- Decimal rendering of a natural number (Python `str` of an `int`),
as a character list. -/
def natStrL (n : Nat) : List Char :=
  if n = 0 then ['0'] else (natDigits n).reverse.map Nat.digitChar

def natStr (n : Nat) : String := ⟨natStrL n⟩

/-- Round a rational to the nearest integer, ties to even — the rounding
used by Python's fixed-precision float formatting. -/
def roundHalfEven (q : ℚ) : ℤ :=
  let f := ⌊q⌋
  if q - f < 1/2 then f
  else if 1/2 < q - f then f + 1
  else if f % 2 = 0 then f else f + 1

/-- Python `f"{v:.1f}"` (used by `label_from_value` on the absolute value,
which is nonnegative). -/
def fmt1 (q : ℚ) : String :=
  let n : Nat := (roundHalfEven (q * 10)).toNat
  natStr (n / 10) ++ "." ++ natStr (n % 10)

def padL (w : Nat) (s : List Char) : List Char :=
  List.replicate (w - s.length) '0' ++ s

/-- Python `f"{v:.3f}"` (used by `camera_string`). -/
def fmt3 (q : ℚ) : String :=
  let n : Nat := (roundHalfEven (|q| * 1000)).toNat
  (if q < 0 then "-" else "") ++ natStr (n / 1000) ++ "." ++ ⟨padL 3 (natStrL (n % 1000))⟩

/-- Python `str.rstrip(cs)` at the character-list level. -/
def pyRstripL (l : List Char) (cs : List Char) : List Char :=
  ((l.reverse).dropWhile (fun c => cs.contains c)).reverse

/-- Python `str.rstrip(cs)`. -/
def pyRstrip (s : String) (cs : List Char) : String := ⟨pyRstripL s.data cs⟩

/-- Python `str.strip()` (no argument: strip surrounding whitespace),
at the character-list level. -/
def pyStripL (l : List Char) : List Char :=
  ((l.dropWhile Char.isWhitespace).reverse.dropWhile Char.isWhitespace).reverse

/-- Python `text.replace(".", "p")`: the pattern is a single character,
so the replacement is a character map. -/
def replaceDotP (s : String) : String :=
  ⟨s.data.map (fun c => if c = '.' then 'p' else c)⟩

/-- `label_from_value` from scad_tool.py: filename-safe label for an angle. -/
def label_from_value (value : ℚ) : String :=
  let sign := if value < 0 then "m" else ""
  let val := |value|
  let text := pyRstrip (pyRstrip (fmt1 val) ['0']) ['.']
  let text := if text = "" then "0" else text
  sign ++ replaceDotP text

/-- Python `sep.join(parts)`. -/
def pyJoin (sep : String) : List String → String
  | [] => ""
  | [s] => s
  | s :: rest => s ++ sep ++ pyJoin sep rest

/-- Python `s.split(sep)` for a single-character separator. -/
def pySplitC (sep : Char) (s : String) : List String :=
  (s.data.splitOn sep).map String.mk

def pyInAux (needle : List Char) : List Char → Bool
  | [] => needle.isPrefixOf []
  | c :: rest => needle.isPrefixOf (c :: rest) || pyInAux needle rest

/-- Python `needle in hay` on strings: substring test. -/
def pyIn (needle hay : String) : Bool := pyInAux needle.data hay.data

/-- Python truthiness of an optional string (`None` and `""` are falsy). -/
def pyTruthyS : Option String → Bool
  | none => false
  | some s => s != ""

/-- Python truthiness of an optional integer (`None` and `0` are falsy). -/
def pyTruthyI : Option ℤ → Bool
  | none => false
  | some n => n != 0

/-- `camera_string` from scad_tool.py: eye = direction scaled by distance,
center = origin, all six values formatted to three decimals, comma-joined. -/
def camera_string (direction : ℚ × ℚ × ℚ) (distance : ℚ) : String :=
  let eye := (direction.1 * distance, direction.2.1 * distance, direction.2.2 * distance)
  let center : ℚ × ℚ × ℚ := (0, 0, 0)
  let vals := [eye.1, eye.2.1, eye.2.2, center.1, center.2.1, center.2.2]
  pyJoin "," (vals.map fmt3)

/-- `PRESETS` from scad_tool.py, as an association list in insertion order. -/
def PRESETS : List (String × List (String × String)) :=
  [ ("single", [("iso", "0,0,0,55,0,25,0")]),
    ("iso",
      [ ("iso_ne", "0,0,0,55,0,45,0"),
        ("iso_nw", "0,0,0,55,0,135,0"),
        ("iso_sw", "0,0,0,55,0,225,0"),
        ("iso_se", "0,0,0,55,0,315,0") ]),
    ("ortho",
      [ ("front", "0,0,0,90,0,0,0"),
        ("back", "0,0,0,90,0,180,0"),
        ("left", "0,0,0,90,0,270,0"),
        ("right", "0,0,0,90,0,90,0"),
        ("top", "0,0,0,0,0,0,0"),
        ("bottom", "0,0,0,180,0,0,0") ]),
    ("standard",
      [ ("front", "0,0,0,90,0,0,0"),
        ("back", "0,0,0,90,0,180,0"),
        ("left", "0,0,0,90,0,270,0"),
        ("right", "0,0,0,90,0,90,0"),
        ("top", "0,0,0,0,0,0,0"),
        ("bottom", "0,0,0,180,0,0,0"),
        ("iso", "0,0,0,55,0,25,0") ]) ]

/-- `VIEW_DIRECTIONS` from scad_tool.py. -/
def VIEW_DIRECTIONS : List (String × (ℚ × ℚ × ℚ)) :=
  [ ("iso", (1, 1, 1)),
    ("front", (0, -1, 0)),
    ("back", (0, 1, 0)),
    ("left", (-1, 0, 0)),
    ("right", (1, 0, 0)),
    ("top", (0, 0, 1)),
    ("bottom", (0, 0, -1)) ]

/-- Loop body of `parse_angles`, recursing over the comma-separated parts.
`pyFloat` abstracts Python `float()`; `none` models a raised `ValueError`. -/
def parseAnglesAux (pyFloat : String → Option ℚ) :
    List (List Char) → Except String (List (ℚ × ℚ))
  | [] => .ok []
  | part :: rest =>
    let p := pyStripL part
    if p.isEmpty then parseAnglesAux pyFloat rest
    else if !p.contains ':' then
      .error ("Invalid angle '" ++ String.mk p ++ "', expected az:el")
    else
      let az_str := p.takeWhile (fun c => c ≠ ':')
      let el_str := (p.dropWhile (fun c => c ≠ ':')).tail
      match pyFloat ⟨az_str⟩, pyFloat ⟨el_str⟩ with
      | some az, some el => (parseAnglesAux pyFloat rest).map (fun l => (az, el) :: l)
      | _, _ => .error "could not convert string to float"

/-- `parse_angles` from scad_tool.py: comma-separated `az:el` pairs. -/
def parse_angles (pyFloat : String → Option ℚ) (value : String) :
    Except String (List (ℚ × ℚ)) :=
  parseAnglesAux pyFloat (value.data.splitOn ',')

/-- The `screenshots` subcommand's argument record, with the argparse
defaults of scad_tool.py. -/
structure ScreenshotArgs where
  input : String := "model.scad"
  angles : Option String := none
  turntable : Option ℤ := none
  views : Option String := none
  preset : Option String := none
  elevation : ℚ := 25
  az_start : ℚ := 0
  distance : ℚ := 200

/-- Failures of shot-list construction in `cmd_screenshots`:
an uncaught `ValueError` from `parse_angles`, or the fatal
unknown-preset report. -/
inductive SelErr
  | valueError (msg : String)
  | badPreset (msg : String)
deriving DecidableEq

/-- The azimuth sequence of the turntable branch:
`count = max(1, int(360/step))` values `az_start + i*step`. -/
def turntableAngles (step : Nat) (az_start : ℚ) : List ℚ :=
  (List.range (max 1 (360 / step))).map (fun i : Nat => az_start + (i : ℚ) * (step : ℚ))

/-- Priority 1 of `cmd_screenshots`: custom `az:el` pairs, each becoming
one shot labelled by both angles. -/
def angleShots (direction_from_angles : ℚ → ℚ → ℚ × ℚ × ℚ)
    (pyFloat : String → Option ℚ) (a : ScreenshotArgs) :
    Except SelErr (List (String × String)) :=
  match parse_angles pyFloat (a.angles.getD "") with
  | .error m => .error (.valueError m)
  | .ok pairs =>
    .ok (pairs.map (fun q =>
      ("az" ++ label_from_value q.1 ++ "_el" ++ label_from_value q.2,
       camera_string (direction_from_angles q.1 q.2) a.distance)))

/-- Priority 2 of `cmd_screenshots`: the turntable sweep.
`step = abs(int(args.turntable))` clamped away from `0` (dead code: the
branch is only reached when the turntable argument is truthy, i.e.
nonzero), `count = max(1, int(360/step))`. -/
def turntableShots (direction_from_angles : ℚ → ℚ → ℚ × ℚ × ℚ)
    (a : ScreenshotArgs) : List (String × String) :=
  let step0 := (a.turntable.getD 0).natAbs
  let step := if step0 = 0 then 1 else step0
  (turntableAngles step a.az_start).map (fun az =>
    ("tt_az" ++ label_from_value az ++ "_el" ++ label_from_value a.elevation,
     camera_string (direction_from_angles az a.elevation) a.distance))

/-- Priority 3 of `cmd_screenshots`: named views; unknown names are
skipped with a warning. -/
def viewShots (a : ScreenshotArgs) : List (String × String) :=
  let views := ((((a.views.getD "").data.splitOn ',').map
    (fun part => String.mk (pyStripL part))).filter (fun v => v != ""))
  views.filterMap (fun v =>
    (VIEW_DIRECTIONS.lookup v).map (fun d => (v, camera_string d a.distance)))

/-- Priority 4 of `cmd_screenshots`: preset lookup; an unknown preset
is a fatal reported error. -/
def presetShots (a : ScreenshotArgs) : Except SelErr (List (String × String)) :=
  match PRESETS.lookup (a.preset.getD "") with
  | none => .error (.badPreset ("Unknown preset '" ++ a.preset.getD "" ++
      "'. Available: " ++ pyJoin ", " (PRESETS.map Prod.fst)))
  | some shots => .ok shots

/-- Shot-list construction of `cmd_screenshots` (scad_tool.py lines
236-277): the priority-ordered strategy dispatch, producing the list of
`(label, camera_string)` pairs or a fatal failure.  The guards are the
Python truthiness tests of the source (`if args.angles:` etc.). -/
def selectShots (direction_from_angles : ℚ → ℚ → ℚ × ℚ × ℚ)
    (pyFloat : String → Option ℚ) (a : ScreenshotArgs) :
    Except SelErr (List (String × String)) :=
  if pyTruthyS a.angles then angleShots direction_from_angles pyFloat a
  else if pyTruthyI a.turntable then .ok (turntableShots direction_from_angles a)
  else if pyTruthyS a.views then .ok (viewShots a)
  else if pyTruthyS a.preset then presetShots a
  else .ok ((PRESETS.lookup "single").getD [])

/-- The fixed flag list probed by `detect_flags`. -/
def FLAGS : List String :=
  [ "--render", "--backend", "--camera", "--imgsize",
    "--viewall", "--autocenter", "--projection",
    "--view", "--colorscheme" ]

/-- `detect_flags` from scad_tool.py: flag token ↦ substring test against
the help text, in insertion order. -/
def detect_flags (help_text : String) : List (String × Bool) :=
  FLAGS.map (fun flag => (flag, pyIn flag help_text))

def OPENSCAD_BIN : String := "/Applications/OpenSCAD.app/Contents/MacOS/OpenSCAD"

/-- The parts of the process environment that `main` consults, plus the
uniform result of external subprocess runs.  `runResult = none` models a
spawn failure (`FileNotFoundError`); `some c` models the external binary
exiting with code `c`. -/
structure World where
  openscadArg : Option String := none
  envBin : Option String := none
  pathExists : String → Bool := fun _ => false
  inputExists : Bool := true
  runResult : Option ℤ := some 0

/-- `find_openscad` from scad_tool.py: non-empty `OPENSCAD_BIN` env var
whose path exists, else the fixed default path if it exists, else `None`. -/
def find_openscad (w : World) : Option String :=
  if pyTruthyS w.envBin && w.pathExists (w.envBin.getD "") then w.envBin
  else if w.pathExists OPENSCAD_BIN then some OPENSCAD_BIN
  else none

/-- `args.openscad or find_openscad()` in `main`: a truthy explicit
override is used verbatim, with no existence check. -/
def openscadChoice (w : World) : Option String :=
  if pyTruthyS w.openscadArg then w.openscadArg else find_openscad w

/-- External subprocess invocations (attempted spawns):
the `--help` capability probe, or one render per shot. -/
inductive Proc
  | probe
  | render (label : String) (camera : String)
deriving DecidableEq

/-- Process outcome: normal return, `sys.exit`/returned exit code with
the reported message, or an uncaught Python exception (which makes the
interpreter exit with code 1 after printing a traceback). -/
inductive Outcome
  | ok
  | exit (code : ℤ) (msg : String)
  | exc (msg : String)
deriving DecidableEq

/-- The screenshot render loop: one subprocess per shot, stopping at the
first failing invocation and propagating its exit code (`run` calls
`sys.exit(returncode)`), or raising if the binary cannot be spawned. -/
def runShots (w : World) : List (String × String) → List Proc × Outcome
  | [] => ([], .ok)
  | s :: rest =>
    match w.runResult with
    | none => ([.render s.1 s.2], .exc "FileNotFoundError")
    | some c =>
      if c = 0 then
        let r := runShots w rest
        (.render s.1 s.2 :: r.1, r.2)
      else ([.render s.1 s.2], .exit c "")

/-- `cmd_screenshots`: input-file check, shot selection, then the render
loop; an empty shot list is reported and returns successfully. -/
def screenshotsProcs (direction_from_angles : ℚ → ℚ → ℚ × ℚ × ℚ)
    (pyFloat : String → Option ℚ) (a : ScreenshotArgs) (w : World) :
    List Proc × Outcome :=
  if !w.inputExists then ([], .exit 1 ("Input SCAD not found: " ++ a.input))
  else
    match selectShots direction_from_angles pyFloat a with
    | .error (.valueError m) => ([], .exc m)
    | .error (.badPreset m) => ([], .exit 1 m)
    | .ok [] => ([], .ok)
    | .ok shots => runShots w shots

/-- `main` for the `screenshots` subcommand: binary lookup (exiting with
guidance when none is found), then the `--help` capability probe
subprocess, then dispatch to `cmd_screenshots`. -/
def mainProcs (direction_from_angles : ℚ → ℚ → ℚ × ℚ × ℚ)
    (pyFloat : String → Option ℚ) (a : ScreenshotArgs) (w : World) :
    List Proc × Outcome :=
  match openscadChoice w with
  | none => ([], .exit 1 "OpenSCAD not found. Install OpenSCAD.app or set OPENSCAD_BIN.")
  | some _ =>
    (.probe :: (screenshotsProcs direction_from_angles pyFloat a w).1,
     (screenshotsProcs direction_from_angles pyFloat a w).2)

/-- An angles argument that makes `parse_angles` raise: some
comma-separated part is nonempty after stripping and has no colon. -/
def hasMalformedAngles (s : String) : Bool :=
  (s.data.splitOn ',').any (fun part =>
    let p := pyStripL part
    !p.isEmpty && !p.contains ':')

/-- Concrete stand-ins for the abstracted float functions, used to
instantiate witnesses and counterexamples. -/
def dirZero : ℚ → ℚ → ℚ × ℚ × ℚ := fun _ _ => (0, 0, 0)

def floatZero : String → Option ℚ := fun _ => some 0


/-! ### Decimal digit strings -/

def digitChars : List Char := ['0', '1', '2', '3', '4', '5', '6', '7', '8', '9']

theorem natDigitsAux_eq (fuel : Nat) : ∀ n : Nat, n ≤ fuel → natDigitsAux fuel n = Nat.digits 10 n := by
  induction fuel with
  | zero =>
    intro n hn
    interval_cases n
    simp [natDigitsAux]
  | succ f ih =>
    intro n hn
    cases n with
    | zero => simp [natDigitsAux]
    | succ m =>
      rw [natDigitsAux, ih ((m + 1) / 10) (by omega), Nat.digits_def' (by norm_num) (Nat.succ_pos m)]

theorem natDigits_eq (n : Nat) : natDigits n = Nat.digits 10 n :=
  natDigitsAux_eq n n le_rfl

theorem digitChar_mem_digitChars {d : Nat} (h : d < 10) : Nat.digitChar d ∈ digitChars := by
  interval_cases d <;> decide

theorem digitChar_inj {a b : Nat} (ha : a < 10) (hb : b < 10)
    (h : Nat.digitChar a = Nat.digitChar b) : a = b := by
  interval_cases a <;> interval_cases b <;> revert h <;> decide

theorem natStrL_chars {n : Nat} : ∀ c ∈ natStrL n, c ∈ digitChars := by
  intro c hc
  unfold natStrL at hc
  split at hc
  · simp at hc; subst hc; decide
  · rw [natDigits_eq] at hc
    simp only [List.mem_map, List.mem_reverse] at hc
    obtain ⟨d, hd, rfl⟩ := hc
    exact digitChar_mem_digitChars (Nat.digits_lt_base (by norm_num) hd)

theorem natStrL_ne_nil (n : Nat) : natStrL n ≠ [] := by
  unfold natStrL
  split
  · simp
  · rw [natDigits_eq]
    simp [Nat.digits_ne_nil_iff_ne_zero, *]

theorem natStrL_singleton_zero {n : Nat} (hn : n ≠ 0) : natStrL n ≠ ['0'] := by
  unfold natStrL
  rw [if_neg hn, natDigits_eq]
  intro h
  have hlen : ((Nat.digits 10 n).reverse.map Nat.digitChar).length = 1 := by rw [h]; rfl
  simp only [List.length_map, List.length_reverse] at hlen
  obtain ⟨d, hd⟩ := List.length_eq_one.mp hlen
  rw [hd] at h
  simp only [List.reverse_cons, List.reverse_nil, List.nil_append, List.map_cons, List.map_nil,
    List.cons.injEq, and_true] at h
  have hdm : d ∈ Nat.digits 10 n := by rw [hd]; simp
  have hd0 : d = 0 :=
    digitChar_inj (Nat.digits_lt_base (by norm_num) hdm) (by norm_num) (by rw [h]; rfl)
  have hofd := Nat.ofDigits_digits 10 n
  rw [hd, hd0] at hofd
  simp [Nat.ofDigits] at hofd
  omega

theorem map_digitChar_inj : ∀ l₁ l₂ : List Nat, (∀ d ∈ l₁, d < 10) → (∀ d ∈ l₂, d < 10) →
    l₁.map Nat.digitChar = l₂.map Nat.digitChar → l₁ = l₂ := by
  intro l₁
  induction l₁ with
  | nil => intro l₂ _ _ h; cases l₂ <;> simp_all
  | cons a t ih =>
    intro l₂ h1 h2 h
    cases l₂ with
    | nil => simp_all
    | cons b t' =>
      simp only [List.map_cons, List.cons.injEq] at h
      have hab : a = b := digitChar_inj (h1 a (by simp)) (h2 b (by simp)) h.1
      have := ih t' (fun d hd => h1 d (by simp [hd])) (fun d hd => h2 d (by simp [hd])) h.2
      simp [hab, this]

theorem natStrL_inj {m n : Nat} (h : natStrL m = natStrL n) : m = n := by
  by_cases hm : m = 0 <;> by_cases hn : n = 0
  · omega
  · exfalso
    have hm0 : natStrL m = ['0'] := by simp [natStrL, hm]
    rw [hm0] at h
    exact natStrL_singleton_zero hn h.symm
  · exfalso
    have hn0 : natStrL n = ['0'] := by simp [natStrL, hn]
    rw [hn0] at h
    exact natStrL_singleton_zero hm h
  · unfold natStrL at h
    rw [if_neg hm, if_neg hn, natDigits_eq, natDigits_eq] at h
    have h2 := map_digitChar_inj _ _
      (fun d hd => Nat.digits_lt_base (by norm_num) (List.mem_reverse.mp hd))
      (fun d hd => Nat.digits_lt_base (by norm_num) (List.mem_reverse.mp hd)) h
    have h3 := List.reverse_injective h2
    have := Nat.ofDigits_digits 10 m
    rw [h3, Nat.ofDigits_digits] at this
    omega

theorem natStrL_lt10 {r : Nat} (h : r < 10) : natStrL r = [Nat.digitChar r] := by
  interval_cases r <;> rfl



/-! ### String basics and formatting lemmas -/

theorem data_mk (l : List Char) : (String.mk l).data = l := rfl

theorem mk_data (s : String) : String.mk s.data = s := rfl

theorem dot_data : (".").data = ['.'] := rfl

theorem empty_data : ("").data = ([] : List Char) := rfl

theorem m_data : ("m").data = ['m'] := rfl

theorem mk_eq_empty_iff (l : List Char) : (String.mk l = "") ↔ l = [] := by
  constructor
  · intro h
    have := congrArg String.data h
    simpa using this
  · intro h; rw [h]

theorem roundHalfEven_intCast (z : ℤ) : roundHalfEven (z : ℚ) = z := by
  unfold roundHalfEven
  rw [Int.floor_intCast]
  norm_num

theorem fmt1_tenths (n : Nat) : fmt1 ((n : ℚ) / 10) = natStr (n / 10) ++ "." ++ natStr (n % 10) := by
  unfold fmt1
  have h1 : ((n : ℚ) / 10) * 10 = ((n : ℤ) : ℚ) := by push_cast; field_simp
  rw [h1, roundHalfEven_intCast]
  norm_num

theorem digitChars_not_special : ∀ c ∈ digitChars,
    c ≠ '.' ∧ c ≠ 'p' ∧ c ≠ 'm' ∧ c ≠ ',' ∧ c ≠ '-' := by decide

theorem pyRstripL_subset {l cs : List Char} : ∀ c ∈ pyRstripL l cs, c ∈ l := by
  intro c hc
  unfold pyRstripL at hc
  rw [List.mem_reverse] at hc
  have := (List.dropWhile_sublist (l := l.reverse) (p := fun c => cs.contains c)).subset hc
  exact List.mem_reverse.mp this



/-! ### Structure of `label_from_value` on tenth-of-a-degree inputs -/

/-- The body (after the optional `m` sign) of a tenths label:
integer part, then `p` and the tenths digit when the latter is nonzero. -/
def bodyL (n : Nat) : List Char :=
  natStrL (n / 10) ++ (if n % 10 = 0 then [] else 'p' :: [Nat.digitChar (n % 10)])

theorem dropWhile_cons_pos {p : Char → Bool} {a : Char} {l : List Char} (h : p a = true) :
    List.dropWhile p (a :: l) = List.dropWhile p l := by
  rw [List.dropWhile_cons, if_pos h]

theorem dropWhile_cons_neg {p : Char → Bool} {a : Char} {l : List Char} (h : p a = false) :
    List.dropWhile p (a :: l) = a :: l := by
  rw [List.dropWhile_cons, if_neg]
  simp [h]

theorem fmt1_tenths_data (n : Nat) :
    (fmt1 ((n : ℚ) / 10)).data = natStrL (n / 10) ++ '.' :: [Nat.digitChar (n % 10)] := by
  rw [fmt1_tenths]
  simp only [String.data_append, dot_data]
  rw [natStr, natStr, data_mk, data_mk, natStrL_lt10 (Nat.mod_lt n (by norm_num))]
  simp

theorem pyRstripL_step1 (n : Nat) :
    pyRstripL (natStrL (n / 10) ++ '.' :: [Nat.digitChar (n % 10)]) ['0'] =
      if n % 10 = 0 then natStrL (n / 10) ++ ['.']
      else natStrL (n / 10) ++ '.' :: [Nat.digitChar (n % 10)] := by
  have hrev : (natStrL (n / 10) ++ '.' :: [Nat.digitChar (n % 10)]).reverse =
      Nat.digitChar (n % 10) :: '.' :: (natStrL (n / 10)).reverse := by simp
  by_cases h : n % 10 = 0
  · rw [if_pos h]
    unfold pyRstripL
    rw [hrev, h]
    rw [dropWhile_cons_pos (by decide), dropWhile_cons_neg (by decide)]
    simp
  · rw [if_neg h]
    unfold pyRstripL
    rw [hrev]
    have hne : Nat.digitChar (n % 10) ≠ '0' := fun hc =>
      h (digitChar_inj (Nat.mod_lt n (by norm_num)) (by norm_num) hc)
    rw [dropWhile_cons_neg (by simp [hne])]
    simp

theorem pyRstripL_step2 (n : Nat) :
    pyRstripL (if n % 10 = 0 then natStrL (n / 10) ++ ['.']
      else natStrL (n / 10) ++ '.' :: [Nat.digitChar (n % 10)]) ['.'] =
      if n % 10 = 0 then natStrL (n / 10)
      else natStrL (n / 10) ++ '.' :: [Nat.digitChar (n % 10)] := by
  obtain ⟨c, t, hct⟩ : ∃ c t, (natStrL (n / 10)).reverse = c :: t := by
    cases hA : (natStrL (n / 10)).reverse with
    | nil => exact absurd (by simpa using congrArg List.reverse hA) (natStrL_ne_nil (n / 10))
    | cons c t => exact ⟨c, t, rfl⟩
  have hcd : c ∈ digitChars := natStrL_chars c (by
    rw [← List.mem_reverse, hct]; exact List.mem_cons_self c t)
  have hcne : c ≠ '.' := (digitChars_not_special c hcd).1
  by_cases h : n % 10 = 0
  · rw [if_pos h, if_pos h]
    unfold pyRstripL
    rw [show (natStrL (n / 10) ++ ['.']).reverse = '.' :: (natStrL (n / 10)).reverse by simp]
    rw [dropWhile_cons_pos (by decide), hct, dropWhile_cons_neg (by simp [hcne]), ← hct]
    simp
  · rw [if_neg h, if_neg h]
    have hdig : Nat.digitChar (n % 10) ∈ digitChars :=
      digitChar_mem_digitChars (Nat.mod_lt n (by norm_num))
    unfold pyRstripL
    rw [show (natStrL (n / 10) ++ '.' :: [Nat.digitChar (n % 10)]).reverse =
      Nat.digitChar (n % 10) :: '.' :: (natStrL (n / 10)).reverse by simp]
    rw [dropWhile_cons_neg (by simp [(digitChars_not_special _ hdig).1])]
    simp

theorem map_replace_no_dot {l : List Char} (h : ∀ c ∈ l, c ≠ '.') :
    l.map (fun c => if c = '.' then 'p' else c) = l := by
  induction l with
  | nil => rfl
  | cons a t ih =>
    simp only [List.map_cons, if_neg (h a (by simp)), List.cons.injEq, true_and]
    exact ih (fun c hc => h c (by simp [hc]))

theorem label_tenths (k : ℤ) :
    (label_from_value ((k : ℚ) / 10)).data = (if k < 0 then ['m'] else []) ++ bodyL k.natAbs := by
  have h10 : (0 : ℚ) < 10 := by norm_num
  have hlt : ((k : ℚ) / 10 < 0) ↔ k < 0 := by
    rw [div_lt_iff₀ h10]
    simp
  have habs : |(k : ℚ) / 10| = (k.natAbs : ℚ) / 10 := by
    rw [abs_div, abs_of_pos h10, Int.cast_natAbs, Int.cast_abs]
  have htext : (pyRstrip (pyRstrip (fmt1 ((k.natAbs : ℚ) / 10)) ['0']) ['.']).data =
      if k.natAbs % 10 = 0 then natStrL (k.natAbs / 10)
      else natStrL (k.natAbs / 10) ++ '.' :: [Nat.digitChar (k.natAbs % 10)] := by
    show pyRstripL (pyRstripL (fmt1 ((k.natAbs : ℚ) / 10)).data ['0']) ['.'] = _
    rw [fmt1_tenths_data, pyRstripL_step1, pyRstripL_step2]
  have hne : pyRstrip (pyRstrip (fmt1 ((k.natAbs : ℚ) / 10)) ['0']) ['.'] ≠ "" := by
    intro hc
    have hd := congrArg String.data hc
    rw [htext, empty_data] at hd
    by_cases h : k.natAbs % 10 = 0
    · rw [if_pos h] at hd
      exact natStrL_ne_nil _ hd
    · rw [if_neg h] at hd
      exact absurd (List.append_eq_nil.mp hd).1 (natStrL_ne_nil _)
  simp only [label_from_value]
  rw [habs, if_neg hne, String.data_append]
  have hsign : ((if (k : ℚ) / 10 < 0 then "m" else "") : String).data =
      if k < 0 then ['m'] else [] := by
    by_cases hk : k < 0
    · rw [if_pos (hlt.mpr hk), if_pos hk]
    · rw [if_neg (fun hc => hk (hlt.mp hc)), if_neg hk]
  rw [hsign]
  congr 1
  show (replaceDotP _).data = bodyL k.natAbs
  unfold replaceDotP bodyL
  rw [data_mk, htext]
  by_cases h : k.natAbs % 10 = 0
  · rw [if_pos h, if_pos h, List.append_nil]
    exact map_replace_no_dot (fun c hc => (digitChars_not_special c (natStrL_chars c hc)).1)
  · rw [if_neg h, if_neg h]
    rw [List.map_append]
    congr 1
    · exact map_replace_no_dot (fun c hc => (digitChars_not_special c (natStrL_chars c hc)).1)
    · have hdig : Nat.digitChar (k.natAbs % 10) ∈ digitChars :=
        digitChar_mem_digitChars (Nat.mod_lt _ (by norm_num))
      simp [(digitChars_not_special _ hdig).1]



theorem bodyL_head (n : Nat) : ∃ c t, bodyL n = c :: t ∧ c ∈ digitChars := by
  obtain ⟨c, t, hct⟩ : ∃ c t, natStrL (n / 10) = c :: t := by
    cases hA : natStrL (n / 10) with
    | nil => exact absurd hA (natStrL_ne_nil (n / 10))
    | cons c t => exact ⟨c, t, rfl⟩
  refine ⟨c, t ++ (if n % 10 = 0 then [] else 'p' :: [Nat.digitChar (n % 10)]), ?_, ?_⟩
  · rw [bodyL, hct]
    rfl
  · exact natStrL_chars c (by rw [hct]; exact List.mem_cons_self c t)

theorem append_cons_inj {x : Char} :
    ∀ (A A' t t' : List Char), x ∉ A → x ∉ A' → A ++ x :: t = A' ++ x :: t' →
      A = A' ∧ t = t' := by
  intro A
  induction A with
  | nil =>
    intro A' t t' _ hA' h
    cases A' with
    | nil => simpa using h
    | cons b B =>
      exfalso
      simp only [List.nil_append, List.cons_append, List.cons.injEq] at h
      exact hA' (h.1 ▸ List.mem_cons_self b B)
  | cons a B ih =>
    intro A' t t' hA hA' h
    cases A' with
    | nil =>
      exfalso
      simp only [List.cons_append, List.nil_append, List.cons.injEq] at h
      exact hA (h.1 ▸ List.mem_cons_self a B)
    | cons b B' =>
      simp only [List.cons_append, List.cons.injEq] at h
      obtain ⟨h1, h2⟩ := h
      have := ih B' t t' (fun hc => hA (List.mem_cons_of_mem a hc))
        (fun hc => hA' (List.mem_cons_of_mem b hc)) h2
      exact ⟨by rw [h1, this.1], this.2⟩

theorem bodyL_inj {m n : Nat} (h : bodyL m = bodyL n) : m = n := by
  unfold bodyL at h
  have hp : ∀ j : Nat, 'p' ∉ natStrL (j / 10) := fun j hc => by
    have := natStrL_chars 'p' hc
    simp [digitChars] at this
  by_cases hm : m % 10 = 0 <;> by_cases hn : n % 10 = 0
  · rw [if_pos hm, if_pos hn, List.append_nil, List.append_nil] at h
    have := natStrL_inj h
    omega
  · exfalso
    rw [if_pos hm, if_neg hn, List.append_nil] at h
    have : 'p' ∈ natStrL (m / 10) := by
      rw [h]
      simp
    exact hp m this
  · exfalso
    rw [if_neg hm, if_pos hn, List.append_nil] at h
    have : 'p' ∈ natStrL (n / 10) := by
      rw [← h]
      simp
    exact hp n this
  · rw [if_neg hm, if_neg hn] at h
    obtain ⟨h1, h2⟩ := append_cons_inj _ _ _ _ (hp m) (hp n) h
    have hq := natStrL_inj h1
    have hr : m % 10 = n % 10 := by
      apply digitChar_inj (Nat.mod_lt m (by norm_num)) (Nat.mod_lt n (by norm_num))
      simpa using h2
    omega

theorem label_tenths_inj {k l : ℤ}
    (h : label_from_value ((k : ℚ) / 10) = label_from_value ((l : ℚ) / 10)) : k = l := by
  have hd := congrArg String.data h
  rw [label_tenths, label_tenths] at hd
  by_cases hk : k < 0 <;> by_cases hl : l < 0
  · rw [if_pos hk, if_pos hl] at hd
    simp only [List.cons_append, List.nil_append, List.cons.injEq, true_and] at hd
    have := bodyL_inj hd
    omega
  · exfalso
    rw [if_pos hk, if_neg hl] at hd
    obtain ⟨c, t, hct, hcd⟩ := bodyL_head l.natAbs
    rw [hct] at hd
    simp only [List.cons_append, List.nil_append, List.cons.injEq] at hd
    rw [← hd.1] at hcd
    simp [digitChars] at hcd
  · exfalso
    rw [if_neg hk, if_pos hl] at hd
    obtain ⟨c, t, hct, hcd⟩ := bodyL_head k.natAbs
    rw [hct] at hd
    simp only [List.cons_append, List.nil_append, List.cons.injEq] at hd
    rw [hd.1] at hcd
    simp [digitChars] at hcd
  · rw [if_neg hk, if_neg hl] at hd
    simp only [List.nil_append] at hd
    have := bodyL_inj hd
    omega



/-! ### Character sets of labels and camera strings -/

theorem fmt1_data (q : ℚ) : (fmt1 q).data =
    natStrL ((roundHalfEven (q * 10)).toNat / 10) ++
    '.' :: natStrL ((roundHalfEven (q * 10)).toNat % 10) := by
  show (natStr _ ++ "." ++ natStr _).data = _
  rw [String.data_append, String.data_append]
  show (natStrL _ ++ ['.']) ++ natStrL _ = _
  simp

theorem fmt1_chars (q : ℚ) : ∀ c ∈ (fmt1 q).data, c ∈ '.' :: digitChars := by
  intro c hc
  rw [fmt1_data] at hc
  rcases List.mem_append.mp hc with h | h
  · exact List.mem_cons_of_mem _ (natStrL_chars c h)
  · rcases List.mem_cons.mp h with h1 | h1
    · simp [h1]
    · exact List.mem_cons_of_mem _ (natStrL_chars c h1)

theorem replaceDotP_chars {s : String} {S : List Char} (h : ∀ c ∈ s.data, c ∈ '.' :: S) :
    ∀ c ∈ (replaceDotP s).data, c ∈ 'p' :: S := by
  intro c hc
  unfold replaceDotP at hc
  rw [data_mk] at hc
  obtain ⟨d, hd, rfl⟩ := List.mem_map.mp hc
  by_cases hdot : d = '.'
  · rw [if_pos hdot]
    exact List.mem_cons_self _ _
  · rw [if_neg hdot]
    rcases List.mem_cons.mp (h d hd) with h1 | h1
    · exact absurd h1 hdot
    · exact List.mem_cons_of_mem _ h1

theorem label_chars (v : ℚ) : ∀ c ∈ (label_from_value v).data, c ∈ 'm' :: 'p' :: digitChars := by
  intro c hc
  simp only [label_from_value, String.data_append] at hc
  rcases List.mem_append.mp hc with h1 | h2
  · by_cases hv : v < 0
    · rw [if_pos hv, m_data] at h1
      rw [List.mem_singleton.mp h1]
      exact List.mem_cons_self _ _
    · rw [if_neg hv, empty_data] at h1
      simp at h1
  · refine List.mem_cons_of_mem 'm' (replaceDotP_chars ?_ c h2)
    intro d hd
    by_cases he : pyRstrip (pyRstrip (fmt1 |v|) ['0']) ['.'] = ""
    · rw [if_pos he] at hd
      rw [show ("0" : String).data = ['0'] from rfl] at hd
      rw [List.mem_singleton.mp hd]
      exact List.mem_cons_of_mem _ (by decide)
    · rw [if_neg he] at hd
      exact fmt1_chars |v| d (pyRstripL_subset d (pyRstripL_subset d hd))

theorem minus_data : ("-").data = ['-'] := rfl

theorem fmt3_data (q : ℚ) : (fmt3 q).data =
    (if q < 0 then ['-'] else []) ++
    natStrL ((roundHalfEven (|q| * 1000)).toNat / 1000) ++
    '.' :: padL 3 (natStrL ((roundHalfEven (|q| * 1000)).toNat % 1000)) := by
  show ((if q < 0 then "-" else "") ++ natStr _ ++ "." ++ String.mk (padL 3 _)).data = _
  rw [String.data_append, String.data_append, String.data_append]
  have hsign : ((if q < 0 then "-" else "") : String).data = if q < 0 then ['-'] else [] := by
    by_cases h : q < 0
    · rw [if_pos h, if_pos h, minus_data]
    · rw [if_neg h, if_neg h, empty_data]
  rw [hsign]
  show _ ++ natStrL _ ++ ['.'] ++ padL 3 _ = _
  simp

theorem padL_chars {s : List Char} (h : ∀ c ∈ s, c ∈ digitChars) :
    ∀ c ∈ padL 3 s, c ∈ digitChars := by
  intro c hc
  rcases List.mem_append.mp hc with h1 | h1
  · rw [List.eq_of_mem_replicate h1]
    decide
  · exact h c h1

theorem fmt3_chars (q : ℚ) : ∀ c ∈ (fmt3 q).data, c ∈ '-' :: '.' :: digitChars := by
  intro c hc
  rw [fmt3_data] at hc
  rcases List.mem_append.mp hc with h1 | h1
  · rcases List.mem_append.mp h1 with h2 | h2
    · by_cases h : q < 0
      · rw [if_pos h] at h2
        rw [List.mem_singleton.mp h2]
        exact List.mem_cons_self _ _
      · rw [if_neg h] at h2
        simp at h2
    · exact List.mem_cons_of_mem _ (List.mem_cons_of_mem _ (natStrL_chars c h2))
  · rcases List.mem_cons.mp h1 with h2 | h2
    · simp [h2]
    · exact List.mem_cons_of_mem _
        (List.mem_cons_of_mem _ (padL_chars (fun d hd => natStrL_chars d hd) c h2))

theorem fmt3_comma_free (q : ℚ) : ',' ∉ (fmt3 q).data := by
  intro hc
  have := fmt3_chars q ',' hc
  simp [digitChars] at this

/-! ### Splitting a comma-join -/

theorem comma_data : (",").data = [','] := rfl

theorem pySplit_pyJoin (parts : List String) (hne : parts ≠ [])
    (h : ∀ s ∈ parts, ',' ∉ s.data) : pySplitC ',' (pyJoin "," parts) = parts := by
  induction parts with
  | nil => exact absurd rfl hne
  | cons s rest ih =>
    have hpre : ∀ x ∈ s.data, ¬((x == ',') = true) := fun x hx hbeq =>
      h s (List.mem_cons_self _ _) ((beq_iff_eq.mp hbeq) ▸ hx)
    cases rest with
    | nil =>
      show ((pyJoin "," [s]).data.splitOn ',').map String.mk = [s]
      rw [show pyJoin "," [s] = s from rfl, List.splitOn,
        List.splitOnP_eq_single _ _ hpre]
      simp [mk_data]
    | cons s2 rest2 =>
      show ((pyJoin "," (s :: s2 :: rest2)).data.splitOn ',').map String.mk = s :: s2 :: rest2
      have hdata : (pyJoin "," (s :: s2 :: rest2)).data =
          s.data ++ ',' :: (pyJoin "," (s2 :: rest2)).data := by
        rw [show pyJoin "," (s :: s2 :: rest2) = s ++ "," ++ pyJoin "," (s2 :: rest2) from rfl]
        simp [String.data_append, comma_data]
      rw [hdata, List.splitOn,
        List.splitOnP_first (fun x => x == ',') s.data hpre ',' (by simp)
          ((pyJoin "," (s2 :: rest2)).data)]
      have ihh := ih (by simp) (fun t ht => h t (List.mem_cons_of_mem s ht))
      show String.mk s.data ::
          ((pyJoin "," (s2 :: rest2)).data.splitOnP (fun x => x == ',')).map String.mk
          = s :: s2 :: rest2
      rw [mk_data,
        show ((pyJoin "," (s2 :: rest2)).data.splitOnP (fun x => x == ','))
          = (pyJoin "," (s2 :: rest2)).data.splitOn ',' from rfl,
        show ((pyJoin "," (s2 :: rest2)).data.splitOn ',').map String.mk
          = pySplitC ',' (pyJoin "," (s2 :: rest2)) from rfl,
        ihh]

theorem camera_split (d : ℚ × ℚ × ℚ) (dist : ℚ) :
    pySplitC ',' (camera_string d dist) =
      [fmt3 (d.1 * dist), fmt3 (d.2.1 * dist), fmt3 (d.2.2 * dist), fmt3 0, fmt3 0, fmt3 0] := by
  show pySplitC ',' (pyJoin ","
    ([d.1 * dist, d.2.1 * dist, d.2.2 * dist, (0 : ℚ), 0, 0].map fmt3)) = _
  rw [pySplit_pyJoin _ (by simp) ?_]
  · rfl
  · intro s hs
    obtain ⟨q, _, rfl⟩ := List.mem_map.mp hs
    exact fmt3_comma_free q



/-! ### Malformed-angle failures and lookup helpers -/

theorem parseAnglesAux_cons (g : String → Option ℚ) (part : List Char)
    (rest : List (List Char)) :
    parseAnglesAux g (part :: rest) =
      if (pyStripL part).isEmpty then parseAnglesAux g rest
      else if !(pyStripL part).contains ':' then
        Except.error ("Invalid angle '" ++ String.mk (pyStripL part) ++ "', expected az:el")
      else
        match g ⟨(pyStripL part).takeWhile (fun c => c ≠ ':')⟩,
            g ⟨((pyStripL part).dropWhile (fun c => c ≠ ':')).tail⟩ with
        | some az, some el => (parseAnglesAux g rest).map (fun l => (az, el) :: l)
        | _, _ => Except.error "could not convert string to float" := rfl

theorem parseAnglesAux_error (g : String → Option ℚ) :
    ∀ parts : List (List Char),
      (parts.any (fun part =>
        !(pyStripL part).isEmpty && !(pyStripL part).contains ':') = true) →
      ∃ m, parseAnglesAux g parts = .error m := by
  intro parts
  induction parts with
  | nil => intro h; simp at h
  | cons part rest ih =>
    intro h
    rw [List.any_cons] at h
    rw [parseAnglesAux_cons]
    cases hemp : (pyStripL part).isEmpty with
    | true =>
      simp only [hemp, Bool.not_true, Bool.false_and, Bool.false_or] at h
      rw [if_pos (rfl : (true : Bool) = true)]
      exact ih h
    | false =>
      rw [if_neg Bool.false_ne_true]
      cases hcol : (pyStripL part).contains ':' with
      | false =>
        rw [if_pos (show (!(false : Bool)) = true from rfl)]
        exact ⟨_, rfl⟩
      | true =>
        simp only [hemp, hcol, Bool.not_true, Bool.and_false, Bool.false_or,
          Bool.not_false, Bool.true_and] at h
        rw [if_neg (show ¬((!(true : Bool)) = true) from by decide)]
        obtain ⟨m, hm⟩ := ih h
        cases haz : g ⟨(pyStripL part).takeWhile (fun c => c ≠ ':')⟩ with
        | none => exact ⟨_, rfl⟩
        | some az =>
          cases hel : g ⟨((pyStripL part).dropWhile (fun c => c ≠ ':')).tail⟩ with
          | none => exact ⟨_, rfl⟩
          | some el => exact ⟨m, by rw [hm]; rfl⟩

theorem parse_angles_error (g : String → Option ℚ) (s : String)
    (h : hasMalformedAngles s = true) : ∃ m, parse_angles g s = .error m := by
  unfold parse_angles
  apply parseAnglesAux_error
  unfold hasMalformedAngles at h
  exact h

theorem lookup_map_self {β : Type} (g : String → β) :
    ∀ (l : List String) (x : String), x ∈ l →
      (l.map (fun f => (f, g f))).lookup x = some (g x) := by
  intro l
  induction l with
  | nil => intro x hx; simp at hx
  | cons a t ih =>
    intro x hx
    rw [List.map_cons]
    show (match x == a with
      | true => some (g a)
      | false => (t.map (fun f => (f, g f))).lookup x) = some (g x)
    cases hxa : x == a with
    | true =>
      rw [beq_iff_eq] at hxa
      rw [hxa]
    | false =>
      rcases List.mem_cons.mp hx with h1 | h1
      · rw [beq_eq_false_iff_ne] at hxa
        exact absurd h1 hxa
      · exact ih x h1

theorem lookup_map_none {β : Type} (g : String → β) :
    ∀ (l : List String) (x : String), x ∉ l →
      (l.map (fun f => (f, g f))).lookup x = none := by
  intro l
  induction l with
  | nil => intro x _; rfl
  | cons a t ih =>
    intro x hx
    rw [List.map_cons]
    show (match x == a with
      | true => some (g a)
      | false => (t.map (fun f => (f, g f))).lookup x) = none
    cases hxa : x == a with
    | true =>
      rw [beq_iff_eq] at hxa
      exact absurd (hxa ▸ List.mem_cons_self a t) hx
    | false =>
      exact ih x (fun hc => hx (List.mem_cons_of_mem a hc))



/-! ### Branch-selection lemmas -/

theorem selectShots_angles (f : ℚ → ℚ → ℚ × ℚ × ℚ) (g : String → Option ℚ)
    (a : ScreenshotArgs) (h : pyTruthyS a.angles = true) :
    selectShots f g a = angleShots f g a := by
  unfold selectShots
  rw [if_pos h]

theorem selectShots_turntable (f : ℚ → ℚ → ℚ × ℚ × ℚ) (g : String → Option ℚ)
    (a : ScreenshotArgs) (h1 : pyTruthyS a.angles = false)
    (h2 : pyTruthyI a.turntable = true) :
    selectShots f g a = .ok (turntableShots f a) := by
  unfold selectShots
  rw [if_neg (by rw [h1]; exact Bool.false_ne_true), if_pos h2]

theorem turntableShots_eq (f : ℚ → ℚ → ℚ × ℚ × ℚ) (a : ScreenshotArgs) (s : ℤ)
    (h2 : a.turntable = some s) (h3 : s ≠ 0) :
    turntableShots f a = (List.range (max 1 (360 / s.natAbs))).map (fun i : Nat =>
      ("tt_az" ++ label_from_value (a.az_start + (i : ℚ) * (s.natAbs : ℚ)) ++ "_el" ++
          label_from_value a.elevation,
        camera_string (f (a.az_start + (i : ℚ) * (s.natAbs : ℚ)) a.elevation) a.distance)) := by
  unfold turntableShots
  rw [h2]
  show (turntableAngles (if s.natAbs = 0 then 1 else s.natAbs) a.az_start).map _ = _
  rw [if_neg (Int.natAbs_ne_zero.mpr h3)]
  rw [turntableAngles, List.map_map]
  rfl

/-- C1: the spec claims `--turntable 0` is clamped to step 1 and produces
360 shots, one per degree.  In the code, `elif args.turntable:` is false
for the integer `0` (Python truthiness), so the turntable branch — and
its `step == 0` clamp, which is therefore dead code — is never reached:
the invocation falls through to the default branch and produces the
single isometric preset shot (1 shot, not 360). -/
theorem C1_turntable_zero_falls_through_to_single :
    ∀ (direction_from_angles : ℚ → ℚ → ℚ × ℚ × ℚ) (pyFloat : String → Option ℚ),
      selectShots direction_from_angles pyFloat { turntable := some 0 } =
        .ok [("iso", "0,0,0,55,0,25,0")] ∧
      ([("iso", "0,0,0,55,0,25,0")] : List (String × String)).length = 1 := by
  intro f g
  exact ⟨rfl, rfl⟩

/-- C7: preset "standard" yields exactly 7 shots in the fixed order
front, back, left, right, top, bottom, iso. -/
theorem C7_standard_preset_seven_shots :
    ∀ (direction_from_angles : ℚ → ℚ → ℚ × ℚ × ℚ) (pyFloat : String → Option ℚ),
      selectShots direction_from_angles pyFloat { preset := some "standard" } =
        .ok [("front", "0,0,0,90,0,0,0"), ("back", "0,0,0,90,0,180,0"),
             ("left", "0,0,0,90,0,270,0"), ("right", "0,0,0,90,0,90,0"),
             ("top", "0,0,0,0,0,0,0"), ("bottom", "0,0,0,180,0,0,0"),
             ("iso", "0,0,0,55,0,25,0")] ∧
      ([("front", "0,0,0,90,0,0,0"), ("back", "0,0,0,90,0,180,0"),
        ("left", "0,0,0,90,0,270,0"), ("right", "0,0,0,90,0,90,0"),
        ("top", "0,0,0,0,0,0,0"), ("bottom", "0,0,0,180,0,0,0"),
        ("iso", "0,0,0,55,0,25,0")] : List (String × String)).map Prod.fst =
        ["front", "back", "left", "right", "top", "bottom", "iso"] ∧
      ([("front", "0,0,0,90,0,0,0"), ("back", "0,0,0,90,0,180,0"),
        ("left", "0,0,0,90,0,270,0"), ("right", "0,0,0,90,0,90,0"),
        ("top", "0,0,0,0,0,0,0"), ("bottom", "0,0,0,180,0,0,0"),
        ("iso", "0,0,0,55,0,25,0")] : List (String × String)).length = 7 := by
  intro f g
  exact ⟨rfl, rfl, rfl⟩

/-- C2 (amended): strategy priority holds among *truthy* mode options:
a truthy angles string determines the result regardless of turntable,
views and preset; with angles falsy a truthy (nonzero) turntable wins
over views and preset; with both falsy a truthy views string wins over
preset; with all four falsy the default is the single isometric shot.
(The original claim fails for a supplied-but-empty angles string, which
Python truthiness treats as absent: see the counterexample.) -/
theorem C2_strategy_priority :
    ∀ (direction_from_angles : ℚ → ℚ → ℚ × ℚ × ℚ) (pyFloat : String → Option ℚ)
      (a : ScreenshotArgs),
      (pyTruthyS a.angles = true →
        ∀ t v p, selectShots direction_from_angles pyFloat
            { a with turntable := t, views := v, preset := p } =
          selectShots direction_from_angles pyFloat a) ∧
      (pyTruthyS a.angles = false → pyTruthyI a.turntable = true →
        ∀ v p, selectShots direction_from_angles pyFloat { a with views := v, preset := p } =
          selectShots direction_from_angles pyFloat a) ∧
      (pyTruthyS a.angles = false → pyTruthyI a.turntable = false →
        pyTruthyS a.views = true →
        ∀ p, selectShots direction_from_angles pyFloat { a with preset := p } =
          selectShots direction_from_angles pyFloat a) ∧
      (pyTruthyS a.angles = false → pyTruthyI a.turntable = false →
        pyTruthyS a.views = false → pyTruthyS a.preset = false →
        selectShots direction_from_angles pyFloat a = .ok [("iso", "0,0,0,55,0,25,0")]) := by
  intro f g a
  refine ⟨?_, ?_, ?_, ?_⟩
  · intro h t v p
    unfold selectShots
    dsimp only
    rw [if_pos h, if_pos h]
    rfl
  · intro h1 h2 v p
    unfold selectShots
    dsimp only
    rw [if_neg (by rw [h1]; exact Bool.false_ne_true), if_pos h2,
      if_neg (by rw [h1]; exact Bool.false_ne_true), if_pos h2]
    rfl
  · intro h1 h2 h3 p
    unfold selectShots
    dsimp only
    rw [if_neg (by rw [h1]; exact Bool.false_ne_true),
      if_neg (by rw [h2]; exact Bool.false_ne_true), if_pos h3,
      if_neg (by rw [h1]; exact Bool.false_ne_true),
      if_neg (by rw [h2]; exact Bool.false_ne_true), if_pos h3]
    rfl
  · intro h1 h2 h3 h4
    unfold selectShots
    rw [if_neg (by rw [h1]; exact Bool.false_ne_true),
      if_neg (by rw [h2]; exact Bool.false_ne_true),
      if_neg (by rw [h3]; exact Bool.false_ne_true),
      if_neg (by rw [h4]; exact Bool.false_ne_true)]
    rfl

/-- C2 witness: with a truthy angles list, adding a preset does not
change the shot list (the "angles win over preset" instance). -/
theorem C2_strategy_priority_witness :
    selectShots dirZero floatZero { angles := some "45:30" } =
      selectShots dirZero floatZero { angles := some "45:30", preset := some "standard" } :=
  (C2_strategy_priority dirZero floatZero
    { angles := some "45:30", preset := some "standard" }).1 (by decide) none none none

/-- C2 counterexample: `--angles ""` is *supplied* together with
`--preset standard`, yet the shot list is the full standard preset, not
one determined by the (empty) angle list — the empty string is falsy in
Python, so the preset is not ignored: changing only the preset changes
the result even though angles are supplied. -/
theorem C2_counterexample :
    selectShots dirZero floatZero { angles := some "", preset := some "standard" } =
      .ok [("front", "0,0,0,90,0,0,0"), ("back", "0,0,0,90,0,180,0"),
           ("left", "0,0,0,90,0,270,0"), ("right", "0,0,0,90,0,90,0"),
           ("top", "0,0,0,0,0,0,0"), ("bottom", "0,0,0,180,0,0,0"),
           ("iso", "0,0,0,55,0,25,0")] ∧
    selectShots dirZero floatZero { angles := some "", preset := none } =
      .ok [("iso", "0,0,0,55,0,25,0")] ∧
    ¬([("front", "0,0,0,90,0,0,0"), ("back", "0,0,0,90,0,180,0"),
       ("left", "0,0,0,90,0,270,0"), ("right", "0,0,0,90,0,90,0"),
       ("top", "0,0,0,0,0,0,0"), ("bottom", "0,0,0,180,0,0,0"),
       ("iso", "0,0,0,55,0,25,0")] : List (String × String)) =
      [("iso", "0,0,0,55,0,25,0")] := by
  exact ⟨rfl, rfl, by decide⟩

/-- C5 (amended): for a nonzero turntable step `s` (and falsy angles),
the clamped step is `|s|` and the shot list has exactly
`max 1 ⌊360 / |s|⌋` entries — not `⌊360 / |s|⌋`, which is `0` when
`|s| > 360` — with azimuths `az_start + i·|s|`, each shot labelled by
its azimuth and elevation. -/
theorem C5_turntable_step_counts (direction_from_angles : ℚ → ℚ → ℚ × ℚ × ℚ)
    (pyFloat : String → Option ℚ) (a : ScreenshotArgs) (s : ℤ)
    (h1 : pyTruthyS a.angles = false) (h2 : a.turntable = some s) (h3 : s ≠ 0) :
    selectShots direction_from_angles pyFloat a =
      .ok ((List.range (max 1 (360 / s.natAbs))).map (fun i : Nat =>
        ("tt_az" ++ label_from_value (a.az_start + (i : ℚ) * (s.natAbs : ℚ)) ++ "_el" ++
            label_from_value a.elevation,
          camera_string (direction_from_angles (a.az_start + (i : ℚ) * (s.natAbs : ℚ))
            a.elevation) a.distance))) ∧
    ((List.range (max 1 (360 / s.natAbs))).map (fun i : Nat =>
        ("tt_az" ++ label_from_value (a.az_start + (i : ℚ) * (s.natAbs : ℚ)) ++ "_el" ++
            label_from_value a.elevation,
          camera_string (direction_from_angles (a.az_start + (i : ℚ) * (s.natAbs : ℚ))
            a.elevation) a.distance))).length = max 1 (360 / s.natAbs) := by
  have htr : pyTruthyI a.turntable = true := by
    rw [h2]
    show (s != 0) = true
    simp [bne, h3]
  constructor
  · rw [selectShots_turntable _ _ _ h1 htr, turntableShots_eq _ _ s h2 h3]
  · rw [List.length_map, List.length_range]

/-- C5 witness: step 36 from azimuth 0 gives exactly 10 shots with
azimuths 0, 36, ..., 324. -/
theorem C5_turntable_step_counts_witness :
    selectShots dirZero floatZero { turntable := some 36 } =
      .ok ((List.range (max 1 (360 / (36 : ℤ).natAbs))).map (fun i : Nat =>
        ("tt_az" ++ label_from_value ((0 : ℚ) + (i : ℚ) * (((36 : ℤ).natAbs : ℕ) : ℚ)) ++
            "_el" ++ label_from_value 25,
          camera_string (dirZero ((0 : ℚ) + (i : ℚ) * (((36 : ℤ).natAbs : ℕ) : ℚ)) 25)
            200))) ∧
    (List.range (max 1 (360 / (36 : ℤ).natAbs))).map (fun i : Nat =>
        "tt_az" ++ label_from_value ((0 : ℚ) + (i : ℚ) * (((36 : ℤ).natAbs : ℕ) : ℚ)) ++
          "_el" ++ label_from_value 25) =
      ["tt_az0_el25", "tt_az36_el25", "tt_az72_el25", "tt_az108_el25", "tt_az144_el25",
       "tt_az180_el25", "tt_az216_el25", "tt_az252_el25", "tt_az288_el25", "tt_az324_el25"] :=
  ⟨(C5_turntable_step_counts dirZero floatZero { turntable := some 36 } 36 rfl rfl
      (by decide)).1,
   by with_unfolding_all decide⟩

/-- C5 counterexample: for step 361 the claimed count `⌊360/361⌋ = 0`
differs from the produced count `max 1 ⌊360/361⌋ = 1`. -/
theorem C5_counterexample :
    (selectShots dirZero floatZero { turntable := some 361 }).map List.length =
      .ok 1 ∧
    360 / (361 : ℤ).natAbs = 0 ∧ (1 : ℕ) ≠ 360 / (361 : ℤ).natAbs := by
  refine ⟨?_, by decide, by decide⟩
  with_unfolding_all rfl



/-- C3 (amended): every camera directive the tool *constructs* via
`camera_string` pairs a label with a 6-component numeric string (3
scaled eye coordinates followed by 3 zero look-at coordinates, each a
fixed 3-decimal rendering); the fixed preset table instead stores
7-component camera strings (OpenSCAD's translate/rotate/distance gimbal
form), so the original "every entry of the preset table is a
6-component directive" fails. -/
theorem C3_camera_directive_shape :
    (∀ (d : ℚ × ℚ × ℚ) (dist : ℚ),
      (pySplitC ',' (camera_string d dist)).length = 6 ∧
      ∀ s ∈ pySplitC ',' (camera_string d dist), ∃ q : ℚ, s = fmt3 q) ∧
    (∀ pr ∈ PRESETS, ∀ e ∈ pr.2, (pySplitC ',' e.2).length = 7) := by
  constructor
  · intro d dist
    rw [camera_split]
    refine ⟨rfl, ?_⟩
    intro s hs
    rcases List.mem_cons.mp hs with h | h
    · exact ⟨_, h⟩
    rcases List.mem_cons.mp h with h | h
    · exact ⟨_, h⟩
    rcases List.mem_cons.mp h with h | h
    · exact ⟨_, h⟩
    rcases List.mem_cons.mp h with h | h
    · exact ⟨_, h⟩
    rcases List.mem_cons.mp h with h | h
    · exact ⟨_, h⟩
    rcases List.mem_cons.mp h with h | h
    · exact ⟨_, h⟩
    simp at h
  · decide

/-- C3 witness: the shape facts at concrete inputs — a constructed
directive has 6 components, a preset-table directive has 7. -/
theorem C3_camera_directive_shape_witness :
    (pySplitC ',' (camera_string (1, 1, 1) 200)).length = 6 ∧
    (pySplitC ',' ("0,0,0,55,0,25,0" : String)).length = 7 :=
  ⟨(C3_camera_directive_shape.1 (1, 1, 1) 200).1,
   C3_camera_directive_shape.2 ("single", [("iso", "0,0,0,55,0,25,0")]) (by decide)
     ("iso", "0,0,0,55,0,25,0") (by decide)⟩

/-- C3 counterexample: the "single" preset's directive pairs the label
"iso" with the camera string "0,0,0,55,0,25,0", which has 7
comma-separated components, not 6, and none of them carries a fixed
decimal precision. -/
theorem C3_counterexample :
    PRESETS.lookup "single" = some [("iso", "0,0,0,55,0,25,0")] ∧
    (pySplitC ',' ("0,0,0,55,0,25,0" : String)).length = 7 ∧
    (pySplitC ',' ("0,0,0,55,0,25,0" : String)).length ≠ 6 := by
  exact ⟨rfl, rfl, by decide⟩

/-- C4: `label_from_value` is deterministic (it is a pure function),
injective on the tool's practical input domain — angles that are whole
tenths of a degree, the resolution of its `%.1f` formatting — and emits
only characters in `[a-z0-9mp]`; the claimed examples
`-12.50 ↦ "m12p5"`, `0 ↦ "0"`, `30.0 ↦ "30"` hold. -/
theorem C4_label_injective_and_filename_safe :
    (∀ k l : ℤ, label_from_value ((k : ℚ) / 10) = label_from_value ((l : ℚ) / 10) → k = l) ∧
    (∀ v : ℚ, ∀ c ∈ (label_from_value v).data,
      ('a' ≤ c ∧ c ≤ 'z') ∨ ('0' ≤ c ∧ c ≤ '9')) ∧
    label_from_value (-25 / 2) = "m12p5" ∧
    label_from_value 0 = "0" ∧
    label_from_value 30 = "30" := by
  refine ⟨fun k l h => label_tenths_inj h, ?_, ?_, ?_, ?_⟩
  · intro v c hc
    have hm := label_chars v c hc
    rcases List.mem_cons.mp hm with rfl | hm
    · decide
    rcases List.mem_cons.mp hm with rfl | hm
    · decide
    have : c ∈ digitChars := hm
    rw [digitChars] at this
    rcases List.mem_cons.mp this with rfl | this
    · decide
    rcases List.mem_cons.mp this with rfl | this
    · decide
    rcases List.mem_cons.mp this with rfl | this
    · decide
    rcases List.mem_cons.mp this with rfl | this
    · decide
    rcases List.mem_cons.mp this with rfl | this
    · decide
    rcases List.mem_cons.mp this with rfl | this
    · decide
    rcases List.mem_cons.mp this with rfl | this
    · decide
    rcases List.mem_cons.mp this with rfl | this
    · decide
    rcases List.mem_cons.mp this with rfl | this
    · decide
    rcases List.mem_cons.mp this with rfl | this
    · decide
    simp at this
  · with_unfolding_all decide
  · with_unfolding_all decide
  · with_unfolding_all decide

/-- C4 witness: the injectivity hypothesis discharged at a concrete
pair, and the character-safety fact applied to a concrete character of
a concrete label. -/
theorem C4_label_injective_and_filename_safe_witness :
    (125 : ℤ) = 125 ∧ (('a' ≤ 'm' ∧ 'm' ≤ 'z') ∨ ('0' ≤ 'm' ∧ 'm' ≤ '9')) :=
  ⟨C4_label_injective_and_filename_safe.1 125 125 rfl,
   C4_label_injective_and_filename_safe.2.1 (-25 / 2) 'm' (by with_unfolding_all decide)⟩

/-- C8: `camera_string` emits exactly the six values dx·d, dy·d, dz·d,
0, 0, 0 in fixed 3-decimal form, comma-joined; doubling the distance
doubles the three eye values while the three center components stay
"0.000". -/
theorem C8_camera_string_scales_linearly :
    ∀ dx dy dz dist : ℚ,
      pySplitC ',' (camera_string (dx, dy, dz) dist) =
        [fmt3 (dx * dist), fmt3 (dy * dist), fmt3 (dz * dist), fmt3 0, fmt3 0, fmt3 0] ∧
      fmt3 0 = "0.000" ∧
      pySplitC ',' (camera_string (dx, dy, dz) (2 * dist)) =
        [fmt3 (2 * (dx * dist)), fmt3 (2 * (dy * dist)), fmt3 (2 * (dz * dist)),
         "0.000", "0.000", "0.000"] := by
  intro dx dy dz dist
  have h0 : fmt3 0 = "0.000" := by with_unfolding_all decide
  refine ⟨camera_split (dx, dy, dz) dist, h0, ?_⟩
  rw [camera_split]
  show [fmt3 (dx * (2 * dist)), fmt3 (dy * (2 * dist)), fmt3 (dz * (2 * dist)),
    fmt3 0, fmt3 0, fmt3 0] = _
  rw [h0, show dx * (2 * dist) = 2 * (dx * dist) from by ring,
    show dy * (2 * dist) = 2 * (dy * dist) from by ring,
    show dz * (2 * dist) = 2 * (dz * dist) from by ring]



/-- A sample OpenSCAD help text that mentions "--camera" but not
"--viewall", for the capability-probe example. -/
def helpSample : String :=
  "usage: openscad [options] file\n  --camera=arg camera parameters\n  --imgsize=x,y image size\n  --render render geometry\n"

/-- C9: for every help text, `detect_flags` produces a mapping whose
domain is exactly the fixed list of 9 flag tokens (in order), each bound
to `true` iff the token occurs as a substring of the help text; on a
sample help text containing "--camera" but not "--viewall" the lookup
gives camera ↦ true and viewall ↦ false. -/
theorem C9_detect_flags_domain_and_substring :
    (∀ h : String,
      (detect_flags h).map Prod.fst = FLAGS ∧
      (∀ fl b, (fl, b) ∈ detect_flags h → b = pyIn fl h) ∧
      (∀ fl, fl ∈ FLAGS → (detect_flags h).lookup fl = some (pyIn fl h)) ∧
      (∀ fl, fl ∉ FLAGS → (detect_flags h).lookup fl = none)) ∧
    FLAGS.length = 9 ∧
    (detect_flags helpSample).lookup "--camera" = some true ∧
    (detect_flags helpSample).lookup "--viewall" = some false := by
  refine ⟨?_, rfl, by decide, by decide⟩
  intro h
  refine ⟨?_, ?_, ?_, ?_⟩
  · rw [detect_flags, List.map_map]
    exact List.map_id _
  · intro fl b hm
    rw [detect_flags] at hm
    obtain ⟨f, _, hf⟩ := List.mem_map.mp hm
    obtain ⟨h1, h2⟩ := Prod.mk.injEq .. ▸ hf
    rw [← h1, ← h2]
  · intro fl hfl
    exact lookup_map_self (fun f => pyIn f h) FLAGS fl hfl
  · intro fl hfl
    exact lookup_map_none (fun f => pyIn f h) FLAGS fl hfl

/-- C9 witness: the lookup description applied to a concrete flag and
help text. -/
theorem C9_detect_flags_domain_and_substring_witness :
    (detect_flags helpSample).lookup "--render" = some (pyIn "--render" helpSample) :=
  (C9_detect_flags_domain_and_substring.1 helpSample).2.2.1 "--render" (by decide)

/-- C6 (amended): a malformed angles argument (a nonempty stripped part
with no colon) makes the screenshots invocation fail — the outcome is
never a successful run — and no *render* subprocess is ever attempted;
any subprocess in the trace is the capability probe.  (The original
"no subprocess runs at all" fails: the `--help` probe has already run by
the time the angles are parsed; see the counterexample.) -/
theorem C6_malformed_angles_fatal_before_renders
    (direction_from_angles : ℚ → ℚ → ℚ × ℚ × ℚ) (pyFloat : String → Option ℚ)
    (a : ScreenshotArgs) (w : World)
    (h : hasMalformedAngles (a.angles.getD "") = true) :
    (∀ p ∈ (mainProcs direction_from_angles pyFloat a w).1, p = Proc.probe) ∧
    (mainProcs direction_from_angles pyFloat a w).2 ≠ Outcome.ok := by
  obtain ⟨s, hs⟩ : ∃ s, a.angles = some s := by
    cases ha : a.angles with
    | none => rw [ha] at h; exact absurd h (by decide)
    | some s => exact ⟨s, rfl⟩
  have hts : pyTruthyS a.angles = true := by
    rw [hs]
    show (s != "") = true
    cases he : s == "" with
    | true =>
      rw [beq_iff_eq] at he
      rw [hs, he] at h
      exact absurd h (by decide)
    | false => simp [bne, he]
  obtain ⟨m, hm⟩ := parse_angles_error pyFloat (a.angles.getD "") h
  have hsel : selectShots direction_from_angles pyFloat a = .error (.valueError m) := by
    rw [selectShots_angles _ _ _ hts, angleShots, hm]
  have hscreen : ∃ o, screenshotsProcs direction_from_angles pyFloat a w = ([], o) ∧
      o ≠ Outcome.ok := by
    unfold screenshotsProcs
    cases hinp : w.inputExists with
    | false =>
      exact ⟨_, rfl, fun hc => Outcome.noConfusion hc⟩
    | true =>
      rw [if_neg (show ¬((!(true : Bool)) = true) from by decide), hsel]
      exact ⟨Outcome.exc m, rfl, fun hc => Outcome.noConfusion hc⟩
  obtain ⟨o, ho, hno⟩ := hscreen
  unfold mainProcs
  cases hosc : openscadChoice w with
  | none =>
    exact ⟨fun p hp => absurd hp (List.not_mem_nil p), fun hc => Outcome.noConfusion hc⟩
  | some b =>
    rw [ho]
    constructor
    · intro p hp
      rcases List.mem_cons.mp hp with h1 | h1
      · exact h1
      · exact absurd h1 (List.not_mem_nil p)
    · exact hno

/-- C6 witness: a malformed pair "45-30" at a world with a resolvable
binary: only the probe may appear and the outcome is not success. -/
theorem C6_malformed_angles_fatal_before_renders_witness :
    (∀ p ∈ (mainProcs dirZero floatZero { angles := some "45-30" }
        { openscadArg := some "/usr/local/bin/openscad" }).1, p = Proc.probe) ∧
    (mainProcs dirZero floatZero { angles := some "45-30" }
        { openscadArg := some "/usr/local/bin/openscad" }).2 ≠ Outcome.ok :=
  C6_malformed_angles_fatal_before_renders dirZero floatZero
    { angles := some "45-30" } { openscadArg := some "/usr/local/bin/openscad" } (by decide)

/-- C6 counterexample: with a located binary, an invocation whose angles
argument "45-30" lacks the colon separator still runs one subprocess —
the `--help` capability probe, invoked by `main` before `cmd_screenshots`
parses the angles — before dying on the uncaught `ValueError`; the claim
that *no* subprocess runs for such an invocation is false. -/
theorem C6_counterexample :
    mainProcs dirZero floatZero { angles := some "45-30" }
        { openscadArg := some "/usr/local/bin/openscad" } =
      ([Proc.probe], Outcome.exc "Invalid angle '45-30', expected az:el") ∧
    (mainProcs dirZero floatZero { angles := some "45-30" }
        { openscadArg := some "/usr/local/bin/openscad" }).1.length ≠ 0 := by
  exact ⟨by decide, by decide⟩

/-- C10 (amended): when *no* explicit override is supplied (the
`--openscad` argument is absent or empty) and neither the
`OPENSCAD_BIN` environment path nor the fixed default install path
exists, `main` returns exit code 1 with the guidance message before any
subprocess is attempted.  (A supplied override is used verbatim with no
existence check, so a nonexistent override path does not trigger the
guidance exit: see the counterexample.) -/
theorem C10_missing_binary_guidance_exit
    (direction_from_angles : ℚ → ℚ → ℚ × ℚ × ℚ) (pyFloat : String → Option ℚ)
    (a : ScreenshotArgs) (w : World)
    (h1 : pyTruthyS w.openscadArg = false)
    (h2 : (pyTruthyS w.envBin && w.pathExists (w.envBin.getD "")) = false)
    (h3 : w.pathExists OPENSCAD_BIN = false) :
    mainProcs direction_from_angles pyFloat a w =
      ([], .exit 1 "OpenSCAD not found. Install OpenSCAD.app or set OPENSCAD_BIN.") := by
  have hfind : find_openscad w = none := by
    unfold find_openscad
    rw [if_neg (by rw [h2]; exact Bool.false_ne_true),
      if_neg (by rw [h3]; exact Bool.false_ne_true)]
  have hchoice : openscadChoice w = none := by
    unfold openscadChoice
    rw [if_neg (by rw [h1]; exact Bool.false_ne_true), hfind]
  unfold mainProcs
  rw [hchoice]

/-- C10 witness: the guidance exit at the default world (no override, no
environment path, default path absent): exit code 1, guidance message,
and an empty subprocess trace. -/
theorem C10_missing_binary_guidance_exit_witness :
    mainProcs dirZero floatZero {} {} =
      ([], .exit 1 "OpenSCAD not found. Install OpenSCAD.app or set OPENSCAD_BIN.") :=
  C10_missing_binary_guidance_exit dirZero floatZero {} {} rfl rfl rfl

/-- C10 counterexample: with an explicit override naming a nonexistent
path (every lookup mechanism unusable: the override path, the
environment path and the default path all fail the existence test), the
tool does *not* exit immediately with guidance: it attempts the help
probe and then a render, and dies with an uncaught spawn failure rather
than the guidance exit. -/
theorem C10_counterexample :
    ({ openscadArg := some "/missing/openscad", runResult := none } : World).pathExists
        "/missing/openscad" = false ∧
    ({ openscadArg := some "/missing/openscad", runResult := none } : World).pathExists
        OPENSCAD_BIN = false ∧
    mainProcs dirZero floatZero {}
        { openscadArg := some "/missing/openscad", runResult := none } =
      ([Proc.probe, Proc.render "iso" "0,0,0,55,0,25,0"],
        Outcome.exc "FileNotFoundError") := by
  exact ⟨rfl, rfl, by decide⟩


end ScadTool
